import Mathlib

/-!
# Stop4Body `SampleReader.h`: exception taxonomy and sample containers

A shallow embedding of `interface/SampleReader.h`.

* `std::string` is `String`, one `Char` per C++ `char`; `std::vector<T>` is `List T`.
* An exception object is a value of `SampleReaderException`; its constructor records the
  dynamic class, which is what virtual dispatch (`what`, `extra_info`) matches on.
* `std::string::pop_back` has the precondition `!empty()`; calling it on an empty string is
  undefined behaviour and is rendered as `none`.
* `void*` results are `Option Pointee`, `none` being `nullptr`.
* A `const char*` result is the C string it addresses: the characters up to, and without,
  the first NUL character.
-/

set_option autoImplicit false

namespace SampleReaderH

/-! ## Exception taxonomy -/

/-- The enumeration `SampleReaderException::ExceptionType` (line 19). -/
inductive ExceptionType
  | Base
  | FileNotFound
  | MissingParamsInJSON
  | EmptySampleInfo
  | EmptyProcessInfo
  | EmptySampleReader
  deriving DecidableEq, Repr

/-- The classes of the exception hierarchy (lines 16, 55, 67, 79, 103). -/
inductive ExceptionClass
  | SampleReaderException
  | MissingJSONParam
  | FileNotFound
  | EmptySampleInfo
  | EmptyProcessInfo
  deriving DecidableEq, Repr

/-- The four classes derived from `SampleReaderException`. -/
def ExceptionClass.isSubclass : ExceptionClass → Bool
  | .SampleReaderException => false
  | _ => true

/-- The kind each subclass constructor passes to the base constructor (lines 59, 71, 83,
107); the one-argument base constructor sets `Base` (line 24). -/
def ExceptionClass.constructorKind : ExceptionClass → ExceptionType
  | .SampleReaderException => ExceptionType.Base
  | .MissingJSONParam => ExceptionType.MissingParamsInJSON
  | .FileNotFound => ExceptionType.FileNotFound
  | .EmptySampleInfo => ExceptionType.EmptySampleInfo
  | .EmptyProcessInfo => ExceptionType.EmptyProcessInfo

/-- An exception object. Every class has the members `msg_` and `type_` of the base class
(lines 51-52); `EmptySampleInfo` and `EmptyProcessInfo` add `missingFiles_` (lines 100, 124). -/
inductive SampleReaderException
  | base (msg_ : String) (type_ : ExceptionType)
  | missingJSONParam (msg_ : String) (type_ : ExceptionType)
  | fileNotFound (msg_ : String) (type_ : ExceptionType)
  | emptySampleInfo (msg_ : String) (type_ : ExceptionType) (missingFiles_ : List String)
  | emptyProcessInfo (msg_ : String) (type_ : ExceptionType) (missingFiles_ : List String)
  deriving DecidableEq, Repr

/-- What a `void*` handed out by `extra_info` can address. The code only ever hands out the
address of a `std::vector<std::string>`; a `std::string` target is what a field name would be. -/
inductive Pointee
  | string (s : String)
  | stringVector (v : List String)
  deriving DecidableEq, Repr

/-- The NUL character, which terminates a C string. -/
def NUL : Char := Char.ofNat 0

/-- The C string that `std::string::c_str()` addresses, as a reader of the `const char*`
sees it: the characters of `s` before its first NUL character (all of `s` when it holds
none). -/
def c_str (s : String) : String :=
  ⟨s.data.takeWhile (fun c => c != NUL)⟩

namespace SampleReaderException

/-- The member `msg_`. -/
def msg_ : SampleReaderException → String
  | base m _ => m
  | missingJSONParam m _ => m
  | fileNotFound m _ => m
  | emptySampleInfo m _ _ => m
  | emptyProcessInfo m _ _ => m

/-- The member `type_`. -/
def type_ : SampleReaderException → ExceptionType
  | base _ t => t
  | missingJSONParam _ t => t
  | fileNotFound _ t => t
  | emptySampleInfo _ t _ => t
  | emptyProcessInfo _ t _ => t

/-- The dynamic class of the object. -/
def dynamicClass : SampleReaderException → ExceptionClass
  | base _ _ => .SampleReaderException
  | missingJSONParam _ _ => .MissingJSONParam
  | fileNotFound _ _ => .FileNotFound
  | emptySampleInfo _ _ _ => .EmptySampleInfo
  | emptyProcessInfo _ _ _ => .EmptyProcessInfo

/-- Lines 37-40: `what()` returns `msg_.c_str()`, a `const char*`: the C string stored in
`msg_`, which ends at the first NUL character. No class overrides it. -/
def what (e : SampleReaderException) : String :=
  c_str e.msg_

/-- Lines 42-45, 93-96, 117-120: the virtual `extra_info()`. The base version returns
`nullptr`; only `EmptySampleInfo` and `EmptyProcessInfo` override it, returning
`&missingFiles_`. -/
def extra_info : SampleReaderException → Option Pointee
  | base _ _ => none
  | missingJSONParam _ _ => none
  | fileNotFound _ _ => none
  | emptySampleInfo _ _ missingFiles_ => some (.stringVector missingFiles_)
  | emptyProcessInfo _ _ missingFiles_ => some (.stringVector missingFiles_)

/-- Line 47: `type()` returns `type_`. -/
def type (e : SampleReaderException) : ExceptionType :=
  e.type_

/-- Lines 21-26: `SampleReaderException(message)`. -/
def fromMessage (message : String) : SampleReaderException :=
  base message ExceptionType.Base

/-- Lines 28-33: `SampleReaderException(message, type)`. -/
def fromMessageType (message : String) (type : ExceptionType) : SampleReaderException :=
  base message type

end SampleReaderException

open SampleReaderException

/-- Lines 58-61: `MissingJSONParam(message)`. -/
def MissingJSONParam (message : String) : SampleReaderException :=
  missingJSONParam message ExceptionType.MissingParamsInJSON

/-- Lines 70-73: `FileNotFound(message)`. -/
def FileNotFound (message : String) : SampleReaderException :=
  fileNotFound message ExceptionType.FileNotFound

/-- The call `std::string::pop_back()`: removes the last character; on an empty string the
behaviour is undefined (`none`). -/
def pop_back (s : String) : Option String :=
  match s.data with
  | [] => none
  | c :: cs => some ⟨(c :: cs).dropLast⟩

/-- Lines 86-88 and 110-112: `msg_ = ""; for (auto& file : missingFiles_)
msg_ += "'" + file + "', ";`. -/
def appendQuoted (missingFiles_ : List String) : String :=
  missingFiles_.foldl (fun msg_ file => msg_ ++ ("'" ++ file ++ "', ")) ""

/-- Lines 82-91: `EmptySampleInfo(filesNotFound)`; the two `pop_back` calls are made
whatever the list holds. -/
def EmptySampleInfo (filesNotFound : List String) : Option SampleReaderException :=
  let missingFiles_ := filesNotFound
  (pop_back (appendQuoted missingFiles_)).bind fun m1 =>
  (pop_back m1).bind fun m2 =>
  some (emptySampleInfo m2 ExceptionType.EmptySampleInfo missingFiles_)

/-- Lines 106-115: `EmptyProcessInfo(filesNotFound)`; the two `pop_back` calls are made
whatever the list holds. -/
def EmptyProcessInfo (filesNotFound : List String) : Option SampleReaderException :=
  let missingFiles_ := filesNotFound
  (pop_back (appendQuoted missingFiles_)).bind fun m1 =>
  (pop_back m1).bind fun m2 =>
  some (emptyProcessInfo m2 ExceptionType.EmptyProcessInfo missingFiles_)

/-- The message the documentation describes: every path between single quotes, consecutive
paths separated by a comma and one space, no separator before the first or after the last. -/
def quotedList : List String → String
  | [] => ""
  | [p] => "'" ++ p ++ "'"
  | p :: q :: rest => "'" ++ p ++ "'" ++ ", " ++ quotedList (q :: rest)

/-- The object `e` is what a constructor of class `c` produced. -/
def ConstructedAs : ExceptionClass → SampleReaderException → Prop
  | .SampleReaderException, e =>
      (∃ m, e = SampleReaderException.fromMessage m) ∨
      (∃ m t, e = SampleReaderException.fromMessageType m t)
  | .MissingJSONParam, e => ∃ m, e = MissingJSONParam m
  | .FileNotFound, e => ∃ m, e = FileNotFound m
  | .EmptySampleInfo, e => ∃ l, EmptySampleInfo l = some e
  | .EmptyProcessInfo, e => ∃ l, EmptyProcessInfo l = some e

/-! ## SampleInfo -/

/-- The data members of `SampleInfo` (lines 156-164); `double` is `Float`, `int` is `Int`. -/
structure SampleInfo where
  baseDir_ : String
  suffix_ : String
  crossSection_ : Float
  branchingRatio_ : Float
  tag_ : String
  split_ : Int
  filePaths_ : List String
  missingFiles_ : List String

namespace SampleInfo

/-- Line 134: `getAllFiles() const` returns a copy of `filePaths_`. -/
def getAllFiles (s : SampleInfo) : List String := s.filePaths_

/-- Line 136. -/
def crossSection (s : SampleInfo) : Float := s.crossSection_

/-- Line 137. -/
def branchingRatio (s : SampleInfo) : Float := s.branchingRatio_

/-- Line 138. -/
def tag (s : SampleInfo) : String := s.tag_

/-- Line 139. -/
def split (s : SampleInfo) : Int := s.split_

/-- A position in `filePaths_`: what a `std::vector<std::string>::iterator` (line 142)
denotes. It allows reading and writing the element it addresses. -/
abbrev iterator := Nat

/-- A position in `filePaths_`: what a `const_iterator` (line 143) denotes. It allows
reading only. -/
abbrev const_iterator := Nat

/-- Lines 145-146: `begin()` is `filePaths_.begin()`, the position of the first element. -/
def begin (_s : SampleInfo) : iterator := 0

/-- Line 147: `cbegin()`. -/
def cbegin (_s : SampleInfo) : const_iterator := 0

/-- Lines 148-149: `end()` is `filePaths_.end()`, the position one past the last element. -/
def end_ (s : SampleInfo) : iterator := s.filePaths_.length

/-- Line 150: `cend()`. -/
def cend (s : SampleInfo) : const_iterator := s.filePaths_.length

/-- The loop `for (it = first; it != last; ++it) visit(*it)` over the vector `v`, returning
what was visited. Dereferencing a position at or past the end of `v` is undefined (`none`). -/
def visitRange (v : List String) (it last : Nat) : Option (List String) :=
  if it = last then some []
  else if h : it < v.length then
    (visitRange v (it + 1) last).map (fun visited => v[it] :: visited)
  else none
termination_by v.length - it

/-- The traversal from `begin()` to `end()`. -/
def traverse (s : SampleInfo) : Option (List String) :=
  visitRange s.filePaths_ s.begin s.end_

/-- The traversal from `cbegin()` to `cend()`. -/
def ctraverse (s : SampleInfo) : Option (List String) :=
  visitRange s.filePaths_ s.cbegin s.cend

/-- The assignment `*(s.begin() + n) = value` through the `iterator` that the non-const
`begin()` of line 145 returns. Writing at or past `end()` is undefined (`none`). -/
def assignThroughIterator (s : SampleInfo) (n : Nat) (value : String) : Option SampleInfo :=
  if n < s.filePaths_.length then
    some { s with filePaths_ := s.filePaths_.set n value }
  else none

end SampleInfo

/-- The uses a caller can make of the public interface of a `SampleInfo` (lines 134-150). -/
inductive PublicCall
  | crossSection
  | branchingRatio
  | tag
  | split
  | getAllFiles
  | traverse
  | ctraverse
  | assignThroughIterator (n : Nat) (value : String)
  deriving DecidableEq, Repr

/-- The calls that go through const members or only read through an iterator. -/
def PublicCall.readOnly : PublicCall → Bool
  | .assignThroughIterator _ _ => false
  | _ => true

/-- The object after one public call; the value the call returns is dropped. The accessors
return by value and are `const`; a traversal only reads. -/
def PublicCall.exec (c : PublicCall) (s : SampleInfo) : Option SampleInfo :=
  match c with
  | .crossSection => some s
  | .branchingRatio => some s
  | .tag => some s
  | .split => some s
  | .getAllFiles => some s
  | .traverse => (s.traverse).map (fun _ => s)
  | .ctraverse => (s.ctraverse).map (fun _ => s)
  | .assignThroughIterator n value => s.assignThroughIterator n value

/-- The object after a sequence of public calls, made in list order. -/
def runCalls : List PublicCall → SampleInfo → Option SampleInfo
  | [], s => some s
  | c :: cs, s => (c.exec s).bind (runCalls cs)

/-- The objects `s` and `t` agree on every data member except possibly on the contents of
the elements of `filePaths_`, whose number is the same. -/
def AgreeOutsidePathContents (s t : SampleInfo) : Prop :=
  t.baseDir_ = s.baseDir_ ∧ t.suffix_ = s.suffix_ ∧ t.crossSection_ = s.crossSection_ ∧
  t.branchingRatio_ = s.branchingRatio_ ∧ t.tag_ = s.tag_ ∧ t.split_ = s.split_ ∧
  t.missingFiles_ = s.missingFiles_ ∧ t.filePaths_.length = s.filePaths_.length

/-! ## ProcessInfo and SampleReader -/

/-- The data members of `ProcessInfo` (lines 205-222). -/
structure ProcessInfo where
  baseDir_ : String
  suffix_ : String
  tag_ : String
  label_ : String
  isdata_ : Bool
  issignal_ : Bool
  isfastsim_ : Bool
  spimpose_ : Bool
  color_ : Int
  lcolor_ : Int
  lwidth_ : Int
  lstyle_ : Int
  fill_ : Int
  marker_ : Int
  mcolor_ : Int
  samples_ : List SampleInfo
  missingFiles_ : List String

namespace ProcessInfo

/-- Line 178. -/
def tag (p : ProcessInfo) : String := p.tag_

/-- Line 180. -/
def isdata (p : ProcessInfo) : Bool := p.isdata_

/-- Line 181. -/
def issignal (p : ProcessInfo) : Bool := p.issignal_

/-- Line 182. -/
def isfastsim (p : ProcessInfo) : Bool := p.isfastsim_

/-- Line 183. -/
def spimpose (p : ProcessInfo) : Bool := p.spimpose_

/-- Modelled from the spec: the body of `ProcessInfo::getAllFiles()`, declared at line 174
and defined outside the header. The specification makes it the flattened, order-preserving
union of every owned `SampleInfo`'s file list: a result vector that receives, sample after
sample, the files of that sample. -/
def getAllFiles (p : ProcessInfo) : List String :=
  p.samples_.foldl (fun retVal sample => retVal ++ sample.getAllFiles) []

end ProcessInfo

/-- The data members of `SampleReader` (lines 259-263). -/
structure SampleReader where
  inputFile_ : String
  baseDir_ : String
  suffix_ : String
  processes_ : List ProcessInfo
  missingFiles_ : List String

namespace SampleReader

/-- Modelled from the spec: the body of `SampleReader::getAllFiles()`, declared at line 232
and defined outside the header. The specification makes it the flattened union across all
owned processes' files, in process order. -/
def getAllFiles (r : SampleReader) : List String :=
  r.processes_.foldl (fun retVal process => retVal ++ process.getAllFiles) []

end SampleReader

/-! ## Concrete objects used in the examples -/

/-- A sample with two resolved files. -/
def sampleTwoFiles : SampleInfo :=
  { baseDir_ := "/data/", suffix_ := ".root", crossSection_ := 10.0, branchingRatio_ := 0.5,
    tag_ := "ttbar_1", split_ := 2,
    filePaths_ := ["/data/a.root", "/data/b.root"], missingFiles_ := [] }

/-! ## Lemmas on the message built by the two list constructors -/

theorem pop_back_of_ne (s : String) (h : s.data ≠ []) :
    pop_back s = some ⟨s.data.dropLast⟩ := by
  unfold pop_back
  cases hs : s.data with
  | nil => exact absurd hs h
  | cons c cs => rfl

theorem pop_back_empty : pop_back "" = none := rfl

theorem pop_back_append_two (s : String) (a b : Char) :
    (pop_back (s ++ ⟨[a, b]⟩)).bind pop_back = some s := by
  have h1 : (s ++ ⟨[a, b]⟩ : String).data = s.data ++ [a, b] := by
    simp [String.data_append]
  have h2 : pop_back (s ++ ⟨[a, b]⟩) = some ⟨s.data ++ [a]⟩ := by
    rw [pop_back_of_ne _ (by simp [h1]), h1]
    have e : s.data ++ [a, b] = (s.data ++ [a]) ++ [b] := by simp
    rw [e, List.dropLast_concat]
  rw [h2, Option.some_bind, pop_back_of_ne _ (by simp)]
  simp [List.dropLast_concat]

theorem foldl_append_acc (f : String → String) (acc : String) (l : List String) :
    l.foldl (fun m file => m ++ f file) acc = acc ++ l.foldl (fun m file => m ++ f file) "" := by
  induction l generalizing acc with
  | nil => simp
  | cons p rest ih =>
    simp only [List.foldl_cons]
    rw [ih (acc ++ f p), ih ("" ++ f p)]
    simp [String.append_assoc]

theorem appendQuoted_cons (p : String) (rest : List String) :
    appendQuoted (p :: rest) = ("'" ++ p ++ "', ") ++ appendQuoted rest := by
  unfold appendQuoted
  simp only [List.foldl_cons]
  rw [foldl_append_acc (fun file => "'" ++ file ++ "', ")]
  simp

theorem appendQuoted_eq_quotedList (l : List String) (h : l ≠ []) :
    appendQuoted l = quotedList l ++ ", " := by
  induction l with
  | nil => exact absurd rfl h
  | cons p rest ih =>
    cases rest with
    | nil =>
      rw [appendQuoted_cons]
      have : appendQuoted [] = "" := rfl
      rw [this]
      simp only [quotedList]
      apply String.ext
      simp [String.data_append]
    | cons q rest2 =>
      rw [appendQuoted_cons, ih (by simp)]
      simp only [quotedList]
      apply String.ext
      simp [String.data_append]

theorem pop_back_twice_appendQuoted (l : List String) (h : l ≠ []) :
    (pop_back (appendQuoted l)).bind pop_back = some (quotedList l) := by
  rw [appendQuoted_eq_quotedList l h]
  exact pop_back_append_two (quotedList l) ',' ' '

theorem length_quotedList (l : List String) (h : l ≠ []) :
    (quotedList l).length + 2 = (l.map String.length).sum + 4 * l.length := by
  have hq : ("'" : String).length = 1 := rfl
  have hc : (", " : String).length = 2 := rfl
  induction l with
  | nil => exact absurd rfl h
  | cons p rest ih =>
    cases rest with
    | nil =>
      simp only [quotedList, String.length_append, hq, List.map_cons, List.map_nil,
        List.sum_cons, List.sum_nil, List.length_cons, List.length_nil]
      omega
    | cons q rest2 =>
      have := ih (by simp)
      simp only [quotedList, String.length_append, hq, hc, List.map_cons, List.sum_cons,
        List.length_cons] at this ⊢
      omega

theorem EmptySampleInfo_of_ne (l : List String) (h : l ≠ []) :
    EmptySampleInfo l =
      some (emptySampleInfo (quotedList l) ExceptionType.EmptySampleInfo l) := by
  have h2 := pop_back_twice_appendQuoted l h
  unfold EmptySampleInfo
  cases h1 : pop_back (appendQuoted l) with
  | none => rw [h1] at h2; simp at h2
  | some m1 =>
    rw [h1] at h2
    simp only [Option.some_bind] at h2
    simp only [h1, h2, Option.some_bind]

theorem EmptyProcessInfo_of_ne (l : List String) (h : l ≠ []) :
    EmptyProcessInfo l =
      some (emptyProcessInfo (quotedList l) ExceptionType.EmptyProcessInfo l) := by
  have h2 := pop_back_twice_appendQuoted l h
  unfold EmptyProcessInfo
  cases h1 : pop_back (appendQuoted l) with
  | none => rw [h1] at h2; simp at h2
  | some m1 =>
    rw [h1] at h2
    simp only [Option.some_bind] at h2
    simp only [h1, h2, Option.some_bind]

theorem EmptySampleInfo_nil : EmptySampleInfo [] = none := rfl

theorem EmptyProcessInfo_nil : EmptyProcessInfo [] = none := rfl

theorem EmptySampleInfo_some (l : List String) (e : SampleReaderException)
    (h : EmptySampleInfo l = some e) :
    e = emptySampleInfo (quotedList l) ExceptionType.EmptySampleInfo l := by
  cases l with
  | nil => rw [EmptySampleInfo_nil] at h; exact absurd h (by simp)
  | cons p rest =>
    rw [EmptySampleInfo_of_ne _ (by simp)] at h
    exact (Option.some.inj h).symm

theorem EmptyProcessInfo_some (l : List String) (e : SampleReaderException)
    (h : EmptyProcessInfo l = some e) :
    e = emptyProcessInfo (quotedList l) ExceptionType.EmptyProcessInfo l := by
  cases l with
  | nil => rw [EmptyProcessInfo_nil] at h; exact absurd h (by simp)
  | cons p rest =>
    rw [EmptyProcessInfo_of_ne _ (by simp)] at h
    exact (Option.some.inj h).symm

theorem intercalate_go_quoted (acc p : String) (rest : List String) :
    String.intercalate.go (acc ++ ("'" ++ p ++ "'")) ", "
        (rest.map (fun q => "'" ++ q ++ "'")) =
      acc ++ quotedList (p :: rest) := by
  induction rest generalizing acc p with
  | nil => simp [String.intercalate.go, quotedList]
  | cons q rest ih =>
    simp only [List.map_cons, String.intercalate.go]
    have e : acc ++ ("'" ++ p ++ "'") ++ ", " ++ ("'" ++ q ++ "'") =
        (acc ++ ("'" ++ p ++ "'") ++ ", ") ++ ("'" ++ q ++ "'") := rfl
    rw [e, ih]
    simp only [quotedList, String.append_assoc]

theorem quotedList_eq_intercalate (l : List String) :
    quotedList l = ", ".intercalate (l.map (fun q => "'" ++ q ++ "'")) := by
  cases l with
  | nil => rfl
  | cons p rest =>
    have h := intercalate_go_quoted "" p rest
    simp only [String.empty_append] at h
    simp only [List.map_cons, String.intercalate]
    exact h.symm

theorem type_of_constructedAs (c : ExceptionClass) (e : SampleReaderException)
    (h : ConstructedAs c e) (hs : c.isSubclass = true) :
    e.type = c.constructorKind := by
  cases c with
  | SampleReaderException => simp [ExceptionClass.isSubclass] at hs
  | MissingJSONParam => obtain ⟨m, rfl⟩ := h; rfl
  | FileNotFound => obtain ⟨m, rfl⟩ := h; rfl
  | EmptySampleInfo =>
    obtain ⟨l, hl⟩ := h
    have he := EmptySampleInfo_some l e hl
    subst he
    rfl
  | EmptyProcessInfo =>
    obtain ⟨l, hl⟩ := h
    have he := EmptyProcessInfo_some l e hl
    subst he
    rfl

/-! ## Lemmas on traversal and on public calls -/

theorem visitRange_to_end_aux (v : List String) (n i : Nat) (hn : v.length - i = n)
    (h : i ≤ v.length) : SampleInfo.visitRange v i v.length = some (v.drop i) := by
  induction n generalizing i with
  | zero =>
    have hi : i = v.length := by omega
    rw [SampleInfo.visitRange]
    simp [hi]
  | succ n ih =>
    have hlt : i < v.length := by omega
    rw [SampleInfo.visitRange]
    rw [if_neg (Nat.ne_of_lt hlt), dif_pos hlt, ih (i + 1) (by omega) (by omega),
      List.drop_eq_getElem_cons hlt]
    rfl

theorem visitRange_to_end (v : List String) (i : Nat) (h : i ≤ v.length) :
    SampleInfo.visitRange v i v.length = some (v.drop i) :=
  visitRange_to_end_aux v (v.length - i) i rfl h

theorem traverse_eq (s : SampleInfo) : s.traverse = some s.getAllFiles := by
  unfold SampleInfo.traverse SampleInfo.begin SampleInfo.end_ SampleInfo.getAllFiles
  rw [visitRange_to_end _ 0 (Nat.zero_le _)]
  simp

theorem ctraverse_eq (s : SampleInfo) : s.ctraverse = some s.getAllFiles := by
  unfold SampleInfo.ctraverse SampleInfo.cbegin SampleInfo.cend SampleInfo.getAllFiles
  rw [visitRange_to_end _ 0 (Nat.zero_le _)]
  simp

theorem exec_readOnly (c : PublicCall) (s : SampleInfo) (h : c.readOnly = true) :
    c.exec s = some s := by
  cases c <;> simp [PublicCall.readOnly] at h <;>
    simp [PublicCall.exec, traverse_eq, ctraverse_eq]

theorem runCalls_readOnly (cs : List PublicCall) (s : SampleInfo)
    (h : ∀ c ∈ cs, c.readOnly = true) : runCalls cs s = some s := by
  induction cs with
  | nil => rfl
  | cons c rest ih =>
    simp only [runCalls]
    rw [exec_readOnly c s (h c (by simp)), Option.some_bind]
    exact ih (fun d hd => h d (by simp [hd]))

theorem agree_refl (s : SampleInfo) : AgreeOutsidePathContents s s :=
  ⟨rfl, rfl, rfl, rfl, rfl, rfl, rfl, rfl⟩

theorem agree_trans (s t u : SampleInfo) (h1 : AgreeOutsidePathContents s t)
    (h2 : AgreeOutsidePathContents t u) : AgreeOutsidePathContents s u := by
  obtain ⟨a1, a2, a3, a4, a5, a6, a7, a8⟩ := h1
  obtain ⟨b1, b2, b3, b4, b5, b6, b7, b8⟩ := h2
  exact ⟨b1.trans a1, b2.trans a2, b3.trans a3, b4.trans a4, b5.trans a5, b6.trans a6,
    b7.trans a7, b8.trans a8⟩

theorem exec_agree (c : PublicCall) (s t : SampleInfo) (h : c.exec s = some t) :
    AgreeOutsidePathContents s t := by
  by_cases hc : c.readOnly = true
  · rw [exec_readOnly c s hc] at h
    rw [← Option.some.inj h]
    exact agree_refl s
  · cases c <;> simp [PublicCall.readOnly] at hc
    simp only [PublicCall.exec, SampleInfo.assignThroughIterator] at h
    split at h
    · rw [← Option.some.inj h]
      exact ⟨rfl, rfl, rfl, rfl, rfl, rfl, rfl, by simp⟩
    · exact absurd h (by simp)

theorem runCalls_agree (cs : List PublicCall) (s t : SampleInfo)
    (h : runCalls cs s = some t) : AgreeOutsidePathContents s t := by
  induction cs generalizing s with
  | nil =>
    simp only [runCalls] at h
    rw [← Option.some.inj h]
    exact agree_refl s
  | cons c rest ih =>
    simp only [runCalls] at h
    cases hc : c.exec s with
    | none => rw [hc] at h; simp at h
    | some u =>
      rw [hc, Option.some_bind] at h
      exact agree_trans s u t (exec_agree c s u hc) (ih u h)

/-! ## Lemmas on the file lists -/

theorem foldl_append_flatten {α : Type} (f : α → List String) (init : List String)
    (l : List α) :
    l.foldl (fun retVal x => retVal ++ f x) init = init ++ (l.map f).flatten := by
  induction l generalizing init with
  | nil => simp
  | cons a rest ih => simp [ih, List.append_assoc]

theorem ProcessInfo_getAllFiles_eq (p : ProcessInfo) :
    p.getAllFiles = (p.samples_.map SampleInfo.getAllFiles).flatten := by
  unfold ProcessInfo.getAllFiles
  rw [foldl_append_flatten]
  simp

theorem SampleReader_getAllFiles_eq (r : SampleReader) :
    r.getAllFiles = (r.processes_.map ProcessInfo.getAllFiles).flatten := by
  unfold SampleReader.getAllFiles
  rw [foldl_append_flatten]
  simp

/-! ## Lemmas on C strings -/

theorem c_str_of_no_NUL (s : String) (h : NUL ∉ s.data) : c_str s = s := by
  unfold c_str
  apply String.ext
  simp only
  rw [List.takeWhile_eq_self_iff]
  intro c hc
  simp only [bne_iff_ne, ne_eq]
  intro hn
  exact h (hn ▸ hc)

theorem no_NUL_quotedList (l : List String) (h : ∀ p ∈ l, NUL ∉ p.data) :
    NUL ∉ (quotedList l).data := by
  have hq : NUL ∉ ("'" : String).data := by decide
  have hc : NUL ∉ (", " : String).data := by decide
  induction l with
  | nil => simp [quotedList]
  | cons p rest ih =>
    have hp : NUL ∉ p.data := h p (by simp)
    cases rest with
    | nil =>
      simp only [quotedList, String.data_append, List.mem_append, not_or]
      exact ⟨⟨hq, hp⟩, hq⟩
    | cons q rest2 =>
      have hr := ih (fun x hx => h x (by simp [hx]))
      simp only [quotedList, String.data_append, List.mem_append, not_or]
      exact ⟨⟨⟨⟨hq, hp⟩, hq⟩, hc⟩, hr⟩

/-! ## The exception taxonomy: claims -/

/-- C1: for every non-empty list `l` of attempted paths, constructing `EmptySampleInfo` from
`l` yields a failure whose `extra_info()` addresses a vector equal to `l`: same paths, same
order, same multiplicity. -/
theorem EmptySampleInfo_extra_info_eq (l : List String) (h : l ≠ []) :
    ∃ e, EmptySampleInfo l = some e ∧ e.extra_info = some (Pointee.stringVector l) := by
  refine ⟨_, EmptySampleInfo_of_ne l h, ?_⟩
  rfl

/-- Instance of C1 on a list that repeats a path. -/
theorem EmptySampleInfo_extra_info_eq_witness :
    ["/data/x.root", "/data/y.root", "/data/x.root"] ≠ [] ∧
    ∃ e, EmptySampleInfo ["/data/x.root", "/data/y.root", "/data/x.root"] = some e ∧
      e.extra_info =
        some (Pointee.stringVector ["/data/x.root", "/data/y.root", "/data/x.root"]) :=
  ⟨by decide, EmptySampleInfo_extra_info_eq _ (by decide)⟩

/-- C2 as stated fails: for the one-path list holding `a`, NUL, `b`, the message `what()`
of `EmptySampleInfo` and of `EmptyProcessInfo` is the two characters `'a`: it stops at the
NUL, is not the quoted list and does not have length `3 + 4 - 2`. -/
theorem what_cut_in_missing_path :
    (∃ e, EmptySampleInfo ["a\x00b"] = some e ∧ e.what = "'a" ∧
      e.what ≠ quotedList ["a\x00b"] ∧ e.what.length ≠ 3 + 4 * 1 - 2) ∧
    (∃ e, EmptyProcessInfo ["a\x00b"] = some e ∧ e.what = "'a" ∧
      e.what ≠ quotedList ["a\x00b"] ∧ e.what.length ≠ 3 + 4 * 1 - 2) :=
  ⟨⟨_, rfl, by decide, by decide, by decide⟩, ⟨_, rfl, by decide, by decide, by decide⟩⟩

/-- C2, amended: for every non-empty list of missing paths none of which holds a NUL
character, `what()` of both `EmptySampleInfo` and `EmptyProcessInfo` built from it is the
quoted list: each path between single quotes, consecutive paths separated by a comma and a
space, in list order, nothing before the first or after the last; its length is the sum of
the path lengths plus `4n - 2`. -/
theorem what_eq_quotedList (l : List String) (h : l ≠ []) (hn : ∀ p ∈ l, NUL ∉ p.data) :
    (∃ e, EmptySampleInfo l = some e ∧ e.what = quotedList l ∧
      e.what.length = (l.map String.length).sum + 4 * l.length - 2) ∧
    (∃ e, EmptyProcessInfo l = some e ∧ e.what = quotedList l ∧
      e.what.length = (l.map String.length).sum + 4 * l.length - 2) ∧
    quotedList l = ", ".intercalate (l.map (fun p => "'" ++ p ++ "'")) := by
  have hw : c_str (quotedList l) = quotedList l :=
    c_str_of_no_NUL _ (no_NUL_quotedList l hn)
  have hl : (quotedList l).length = (l.map String.length).sum + 4 * l.length - 2 := by
    have := length_quotedList l h
    omega
  refine ⟨⟨_, EmptySampleInfo_of_ne l h, hw, ?_⟩, ⟨_, EmptyProcessInfo_of_ne l h, hw, ?_⟩,
    quotedList_eq_intercalate l⟩
  · exact (congrArg String.length hw).trans hl
  · exact (congrArg String.length hw).trans hl

/-- Instance of the amended C2 on two paths: the message is `'p1', 'p2'`, of length 10. -/
theorem what_eq_quotedList_witness :
    ["p1", "p2"] ≠ [] ∧ (∀ p ∈ ["p1", "p2"], NUL ∉ p.data) ∧
    (∃ e, EmptySampleInfo ["p1", "p2"] = some e ∧ e.what = "'p1', 'p2'" ∧
      e.what.length = ((["p1", "p2"] : List String).map String.length).sum + 4 * 2 - 2) ∧
    (∃ e, EmptyProcessInfo ["p1", "p2"] = some e ∧ e.what = "'p1', 'p2'" ∧
      e.what.length = ((["p1", "p2"] : List String).map String.length).sum + 4 * 2 - 2) :=
  ⟨by decide, by decide,
    (what_eq_quotedList ["p1", "p2"] (by decide) (by decide)).1,
    (what_eq_quotedList ["p1", "p2"] (by decide) (by decide)).2.1⟩

/-- C3: every failure reports the kind of its class whatever its message or payload:
`MissingParamsInJSON` for `MissingJSONParam`, `FileNotFound` for `FileNotFound`,
`EmptySampleInfo` for `EmptySampleInfo`, `EmptyProcessInfo` for `EmptyProcessInfo`, `Base`
for the base class built from a message alone, and the kind passed in for the base class
built from a message and a kind; two failures built by different subclasses never report
the same kind. -/
theorem type_reports_class :
    (∀ m, (MissingJSONParam m).type = ExceptionType.MissingParamsInJSON) ∧
    (∀ m, (FileNotFound m).type = ExceptionType.FileNotFound) ∧
    (∀ l e, EmptySampleInfo l = some e → e.type = ExceptionType.EmptySampleInfo) ∧
    (∀ l, l ≠ [] → ∃ e, EmptySampleInfo l = some e ∧ e.type = ExceptionType.EmptySampleInfo) ∧
    (∀ l e, EmptyProcessInfo l = some e → e.type = ExceptionType.EmptyProcessInfo) ∧
    (∀ l, l ≠ [] →
      ∃ e, EmptyProcessInfo l = some e ∧ e.type = ExceptionType.EmptyProcessInfo) ∧
    (∀ m, (SampleReaderException.fromMessage m).type = ExceptionType.Base) ∧
    (∀ m k, (SampleReaderException.fromMessageType m k).type = k) ∧
    (∀ c1 c2 e1 e2, c1.isSubclass = true → c2.isSubclass = true → c1 ≠ c2 →
      ConstructedAs c1 e1 → ConstructedAs c2 e2 → e1.type ≠ e2.type) := by
  refine ⟨fun _ => rfl, fun _ => rfl, ?_, ?_, ?_, ?_, fun _ => rfl, fun _ _ => rfl, ?_⟩
  · intro l e h
    rw [EmptySampleInfo_some l e h]
    rfl
  · intro l h
    exact ⟨_, EmptySampleInfo_of_ne l h, rfl⟩
  · intro l e h
    rw [EmptyProcessInfo_some l e h]
    rfl
  · intro l h
    exact ⟨_, EmptyProcessInfo_of_ne l h, rfl⟩
  · intro c1 c2 e1 e2 s1 s2 hne h1 h2
    rw [type_of_constructedAs c1 e1 h1 s1, type_of_constructedAs c2 e2 h2 s2]
    cases c1 <;> cases c2 <;>
      simp [ExceptionClass.isSubclass, ExceptionClass.constructorKind] at s1 s2 hne ⊢

/-- Instance of C3: a `MissingJSONParam` and an `EmptySampleInfo`, two different
subclasses, report different kinds. -/
theorem type_reports_class_witness :
    (MissingJSONParam "tag").type ≠
      (emptySampleInfo "'a'" ExceptionType.EmptySampleInfo ["a"]).type :=
  type_reports_class.2.2.2.2.2.2.2.2 ExceptionClass.MissingJSONParam
    ExceptionClass.EmptySampleInfo _ _ rfl rfl (by decide) ⟨"tag", rfl⟩
    ⟨["a"], EmptySampleInfo_of_ne ["a"] (by decide)⟩

/-- C4 as stated fails: `what()` of the `MissingJSONParam`, of the `FileNotFound` and of
the base exception built from the message `ta`, NUL, `g` is `ta`, not the message. -/
theorem what_cut_at_NUL :
    (MissingJSONParam "ta\x00g").what = "ta" ∧
    (MissingJSONParam "ta\x00g").what ≠ "ta\x00g" ∧
    (FileNotFound "ta\x00g").what ≠ "ta\x00g" ∧
    (SampleReaderException.fromMessage "ta\x00g").what ≠ "ta\x00g" :=
  ⟨by decide, by decide, by decide, by decide⟩

/-- C4, amended: for every string `m` that holds no NUL character, `what()` of
`MissingJSONParam(m)`, of `FileNotFound(m)` and of the base `SampleReaderException(m)`
returns `m` itself, not the empty string handed to `std::runtime_error`. -/
theorem what_eq_message (m : String) (h : NUL ∉ m.data) :
    (MissingJSONParam m).what = m ∧ (FileNotFound m).what = m ∧
    (SampleReaderException.fromMessage m).what = m ∧
    ∀ k, (SampleReaderException.fromMessageType m k).what = m :=
  ⟨c_str_of_no_NUL m h, c_str_of_no_NUL m h, c_str_of_no_NUL m h,
    fun _ => c_str_of_no_NUL m h⟩

/-- Instance of the amended C4: the failure raised for the missing field `tag` has the
message `tag`. -/
theorem what_eq_message_witness :
    NUL ∉ ("tag" : String).data ∧ (MissingJSONParam "tag").what = "tag" ∧
    (FileNotFound "tag").what = "tag" ∧
    (SampleReaderException.fromMessage "tag").what = "tag" :=
  ⟨by decide, (what_eq_message "tag" (by decide)).1, (what_eq_message "tag" (by decide)).2.1,
    (what_eq_message "tag" (by decide)).2.2.1⟩

/-- C5 as stated fails: the `MissingJSONParam` raised for the field `tag` has a null
`extra_info()`, so it does not yield the field name. -/
theorem MissingJSONParam_extra_info_not_field :
    (MissingJSONParam "tag").extra_info = none ∧
    ¬ ((MissingJSONParam "tag").extra_info = some (Pointee.string "tag")) := by
  refine ⟨rfl, ?_⟩
  intro h
  exact absurd h (by decide)

/-- C5, amended: for every field name `f`, `extra_info()` of the `MissingJSONParam` raised
for `f` is null: the class does not override the base version and carries no structured
extra data. -/
theorem MissingJSONParam_extra_info_null (f : String) :
    (MissingJSONParam f).extra_info = none :=
  rfl

/-- C10, the code at the empty list: the message is still empty when the first
`pop_back()` is reached, so the call is made on an empty string and the construction of
`EmptyProcessInfo` and of `EmptySampleInfo` has no defined result. -/
theorem empty_list_pop_back_undefined :
    appendQuoted [] = "" ∧ pop_back (appendQuoted []) = none ∧
    EmptyProcessInfo [] = none ∧ EmptySampleInfo [] = none :=
  ⟨rfl, rfl, rfl, rfl⟩

/-! ## SampleInfo: claims -/

/-- C6: for every `SampleInfo`, the traversal from `begin()` to `end()` and the one from
`cbegin()` to `cend()` both terminate and visit exactly the elements of `getAllFiles()`, in
order; after any sequence of earlier traversals and accessor calls a further traversal
visits the same sequence again. -/
theorem traversal_visits_getAllFiles (s : SampleInfo) :
    s.traverse = some s.getAllFiles ∧ s.ctraverse = some s.getAllFiles ∧
    ∀ cs : List PublicCall, (∀ c ∈ cs, c.readOnly = true) →
      ∃ t, runCalls cs s = some t ∧ t.traverse = some s.getAllFiles ∧
        t.ctraverse = some s.getAllFiles := by
  refine ⟨traverse_eq s, ctraverse_eq s, ?_⟩
  intro cs h
  exact ⟨s, runCalls_readOnly cs s h, traverse_eq s, ctraverse_eq s⟩

/-- Instance of C6: after a traversal, two accessor calls and a const traversal, the
two-file sample is traversed as its two paths again. -/
theorem traversal_visits_getAllFiles_witness :
    ∃ t, runCalls [PublicCall.traverse, PublicCall.tag, PublicCall.getAllFiles,
        PublicCall.ctraverse] sampleTwoFiles = some t ∧
      t.traverse = some ["/data/a.root", "/data/b.root"] ∧
      t.ctraverse = some ["/data/a.root", "/data/b.root"] :=
  (traversal_visits_getAllFiles sampleTwoFiles).2.2
    [PublicCall.traverse, PublicCall.tag, PublicCall.getAllFiles, PublicCall.ctraverse]
    (by decide)

/-- C7 as stated fails: one assignment through the iterator returned by the non-const
`begin()` is a defined use of the public interface after which `getAllFiles()` returns a
different list. -/
theorem iterator_write_changes_getAllFiles :
    ∃ t, runCalls [PublicCall.assignThroughIterator 0 "/data/other.root"] sampleTwoFiles
        = some t ∧
      t.getAllFiles = ["/data/other.root", "/data/b.root"] ∧
      t.getAllFiles ≠ sampleTwoFiles.getAllFiles :=
  ⟨_, rfl, rfl, by decide⟩

/-- C7, amended: a sequence of public calls that only uses the accessors and reads through
traversals is always defined and leaves the object unchanged; any defined sequence of
public calls, writes through the non-const iterators included, leaves `baseDir_`,
`suffix_`, `crossSection_`, `branchingRatio_`, `tag_`, `split_`, `missingFiles_` and the
number of file paths unchanged. -/
theorem public_calls_frame (s : SampleInfo) (cs : List PublicCall) :
    ((∀ c ∈ cs, c.readOnly = true) → runCalls cs s = some s) ∧
    (∀ t, runCalls cs s = some t → AgreeOutsidePathContents s t) :=
  ⟨runCalls_readOnly cs s, fun t h => runCalls_agree cs s t h⟩

/-- Instance of the amended C7: a read, a write through the iterator and a traversal leave
the tag, the split count and the number of paths of the two-file sample as they were. -/
theorem public_calls_frame_witness :
    ∃ t, runCalls [PublicCall.getAllFiles,
        PublicCall.assignThroughIterator 1 "/data/other.root", PublicCall.traverse]
        sampleTwoFiles = some t ∧
      AgreeOutsidePathContents sampleTwoFiles t :=
  ⟨{ sampleTwoFiles with filePaths_ := ["/data/a.root", "/data/other.root"] },
    by simp [runCalls, PublicCall.exec, traverse_eq, SampleInfo.assignThroughIterator,
      sampleTwoFiles],
    (public_calls_frame sampleTwoFiles [PublicCall.getAllFiles,
        PublicCall.assignThroughIterator 1 "/data/other.root", PublicCall.traverse]).2 _
      (by simp [runCalls, PublicCall.exec, traverse_eq, SampleInfo.assignThroughIterator,
        sampleTwoFiles])⟩

/-! ## ProcessInfo and SampleReader: claims -/

/-- C9: `SampleReader::getAllFiles()` is the concatenation, in process order, of each
process's `getAllFiles()`, and `ProcessInfo::getAllFiles()` is the concatenation, in sample
order, of each sample's `getAllFiles()`; so the reader's list is every stored path in
process, sample, file order. -/
theorem getAllFiles_concatenation (r : SampleReader) (p : ProcessInfo) :
    r.getAllFiles = (r.processes_.map ProcessInfo.getAllFiles).flatten ∧
    p.getAllFiles = (p.samples_.map SampleInfo.getAllFiles).flatten ∧
    r.getAllFiles =
      (r.processes_.map
        (fun q => (q.samples_.map (fun s => s.filePaths_)).flatten)).flatten := by
  refine ⟨SampleReader_getAllFiles_eq r, ProcessInfo_getAllFiles_eq p, ?_⟩
  rw [SampleReader_getAllFiles_eq]
  congr 1
  apply List.map_congr_left
  intro q _
  exact ProcessInfo_getAllFiles_eq q

end SampleReaderH
